import Mathlib

/-!
Verification of the starknet-migration-demo core: the off-chain Merkle tree
builder (scripts/generate_merkle.ts), the on-chain claim state machine and
root timelock (the MigrationPortal Cairo contract), and the proof verifier
the contract delegates to.

Field elements (Cairo felt252, TypeScript bigint) are modelled as natural
numbers.  The Poseidon hash primitives are opaque cryptographic functions:
every definition that hashes is parametrised over a two-input primitive
(h2, the pair hash used inside the sorted-pair combination) and a
three-input primitive (h3, the leaf hash), so theorems hold for any
instantiation.  Concrete evaluations in witnesses and counterexamples
instantiate them with simple arithmetic stand-ins (testHash2, testHash3);
the facts proved there are structural and do not depend on the choice.
-/

namespace MigrationDemo

/-- Field elements as natural numbers. -/
abbrev F : Type := Nat

/-- MASK_128 from scripts/generate_merkle.ts computeLeaf: 2^128 - 1. -/
def MASK_128 : F := 2 ^ 128 - 1

/-- MAX_PROOF_LENGTH from the MigrationPortal contract: Merkle tree depth limit. -/
def MAX_PROOF_LENGTH : Nat := 32

/-- ROOT_UPDATE_TIMELOCK_BLOCKS from the MigrationPortal contract
(about 48 hours at 12 second blocks). -/
def ROOT_UPDATE_TIMELOCK_BLOCKS : Nat := 14400

/-- hashPair from scripts/generate_merkle.ts: combine two nodes by hashing
them in sorted order (smaller value first).  The same sorted-pair
combination is performed by the commutative Poseidon hasher inside the
OpenZeppelin verify_poseidon used by the contract. -/
def hashPair (h2 : F → F → F) (a b : F) : F :=
  if a < b then h2 a b else h2 b a

/-- computeLeaf from scripts/generate_merkle.ts: hash of the address with
the amount split into a low 128-bit limb (amount & MASK_128) and a high
limb (amount >> 128). -/
def computeLeaf (h3 : F → F → F → F) (address amount : F) : F :=
  h3 address (amount &&& MASK_128) (amount >>> 128)

/-- One pass of the for-loop inside buildMerkleTree
(scripts/generate_merkle.ts): walk the current level two nodes at a time;
each node carries its accumulated proof path (the script stores
[node, ...path] arrays; here a (node, path) pair).  Returns the next
level's node values together with the nextProofs entries pushed by the
loop: for a full pair the right sibling is prepended to the left child's
path and vice versa; a trailing unpaired node is paired with itself and
its own value is prepended. -/
def pairUp (h2 : F → F → F) : List (F × List F) → List F × List (List F)
  | [] => ([], [])
  | [(left, leftPath)] =>
      ([hashPair h2 left left], [left :: leftPath])
  | (left, leftPath) :: (right, rightPath) :: rest =>
      let next := pairUp h2 rest
      (hashPair h2 left right :: next.1,
        (right :: leftPath) :: (left :: rightPath) :: next.2)

/-- The while (currentLevel.length > 1) loop of buildMerkleTree.  After each
pass the script rebuilds currentLevel as nextLevel.map((node, idx) =>
[node, ...nextProofs[idx]]), i.e. the pointwise zip of the new nodes with
the pushed proof entries.  The loop is expressed with a fuel argument; the
initial level length is always sufficient fuel because every pass strictly
shrinks a level of length at least two. -/
def buildLoop (h2 : F → F → F) : Nat → List (F × List F) → List (F × List F)
  | 0, level => level
  | fuel + 1, level =>
      if level.length ≤ 1 then level
      else
        let next := pairUp h2 level
        buildLoop h2 fuel (next.1.zip next.2)

/-- Result record of buildMerkleTree: the root plus the per-leaf proofs. -/
structure BuildResult where
  root : F
  proofs : List (List F)
deriving DecidableEq

/-- buildMerkleTree from scripts/generate_merkle.ts.  Zero leaves throw
(modelled as none).  One leaf: the root is the leaf and its proof is empty.
Otherwise the levels are folded up with buildLoop and the function returns
currentLevel[0][0] as the root together with
currentLevel[0].slice(1).reverse().map(... => []) as the proofs - the
mapped callback in the source never fills in a path, so every returned
proof is the empty list. -/
def buildMerkleTree (h2 : F → F → F) (leaves : List F) : Option BuildResult :=
  match leaves with
  | [] => none
  | [l] => some { root := l, proofs := [[]] }
  | _ :: _ :: _ =>
      match buildLoop h2 leaves.length (leaves.map (fun l => (l, []))) with
      | [] => none
      | (root, path) :: _ =>
          some { root := root, proofs := path.reverse.map (fun _ => ([] : List F)) }

/-- One entry of the off-chain artifact produced by generateMerkleTree. -/
structure ClaimOut where
  address : F
  amount : F
  proof : List F
deriving DecidableEq

/-- The off-chain artifact: root plus per-entry claims with proofs. -/
structure MerkleOutput where
  root : F
  claims : List ClaimOut
deriving DecidableEq

/-- claims.map((claim, index) => ...) from generateMerkleTree: a map that
also passes the element index to the callback. -/
def mapWithIndex (f : Nat → F × F → ClaimOut) : Nat → List (F × F) → List ClaimOut
  | _, [] => []
  | i, e :: rest => f i e :: mapWithIndex f (i + 1) rest

/-- generateMerkleTree from scripts/generate_merkle.ts.  Entries are
(address, amount) pairs; hex-string encoding of the emitted values is
elided (it is a bijective presentation detail).  A single entry short
circuits to root = leaf with an empty proof.  Otherwise buildMerkleTree
runs and each claim receives proofs[index], or [] when that index is
absent (a JavaScript array, even an empty one, is truthy, so the source's
proofs[index] ? proofs[index].map(...) : [] is exactly this getD). -/
def generateMerkleTree (h2 : F → F → F) (h3 : F → F → F → F)
    (entries : List (F × F)) : Option MerkleOutput :=
  let leaves := entries.map (fun e => computeLeaf h3 e.1 e.2)
  match entries with
  | [e] =>
      some { root := computeLeaf h3 e.1 e.2,
             claims := [{ address := e.1, amount := e.2, proof := [] }] }
  | _ =>
      (buildMerkleTree h2 leaves).map (fun br =>
        { root := br.root,
          claims := mapWithIndex (fun i e =>
            { address := e.1, amount := e.2, proof := br.proofs.getD i [] }) 0 entries })

/-- process_proof of openzeppelin_merkle_tree::merkle_proof, the fold
performed by the verify_poseidon function the contract calls: starting
from the leaf, combine with each proof element in order using the
commutative sorted-pair Poseidon hash.  The library fold imposes no
length restriction. -/
def process_proof (h2 : F → F → F) (proof : List F) (leaf : F) : F :=
  proof.foldl (hashPair h2) leaf

/-- verify_poseidon of openzeppelin_merkle_tree::merkle_proof: true iff the
folded candidate equals the root. -/
def verify_poseidon (h2 : F → F → F) (proof : List F) (root leaf : F) : Bool :=
  process_proof h2 proof leaf == root

/-- The distinct error values surfaced by the MigrationPortal contract and
the OpenZeppelin components it embeds.  Each constructor corresponds to a
distinct felt252 short string in the source (Errors module, Pausable and
Ownable components, the propose-time root check), so distinct constructors
model distinguishable on-chain errors. -/
inductive PortalError
  | pausedError
  | notPausedError
  | notOwner
  | alreadyClaimed
  | claimPeriodEnded
  | invalidProof
  | proofTooLong
  | amountZero
  | timelockNotReady
  | noPendingRoot
  | maxAmountExceeded
  | invalidRoot
deriving DecidableEq

/-- The persistent storage of the MigrationPortal contract.  The claimed
map is a total function (Cairo storage maps default to false).  u64 block
numbers and u256 amounts are modelled as naturals; aggregate addition is
natural-number addition (overflow is excluded by the bounded token supply,
spec section 3). -/
structure PortalState where
  paused : Bool
  owner : F
  token : F
  merkle_root : F
  claimed : F → Bool
  claim_deadline_block : Nat
  pending_root : F
  pending_root_block : Nat
  total_claimed : Nat
  max_claim_amount : Nat

/-- compute_leaf from the MigrationPortal contract: Poseidon over the
caller, amount.low and amount.high, where a u256 has low = amount mod
2^128 and high = amount div 2^128. -/
def compute_leaf (h3 : F → F → F → F) (user : F) (amount : Nat) : F :=
  h3 user (amount % 2 ^ 128) (amount / 2 ^ 128)

/-- claim from the MigrationPortal contract.  The guards run in source
order: pausable assert, proof length, already claimed, deadline, zero
amount, amount cap, Merkle proof; on success the caller is marked claimed
and the aggregate total grows.  A Cairo assert failure aborts and reverts
the whole call, modelled by returning the error with no successor state;
the event emission and the external mint call that follow the effects have
no effect on this contract's storage and are elided. -/
def claim (h2 : F → F → F) (h3 : F → F → F → F) (s : PortalState)
    (caller : F) (current_block : Nat) (amount : Nat) (proof : List F) :
    Except PortalError PortalState :=
  if s.paused then .error .pausedError
  else if MAX_PROOF_LENGTH < proof.length then .error .proofTooLong
  else if s.claimed caller then .error .alreadyClaimed
  else if s.claim_deadline_block < current_block then .error .claimPeriodEnded
  else if amount = 0 then .error .amountZero
  else if s.max_claim_amount < amount then .error .maxAmountExceeded
  else if verify_poseidon h2 proof s.merkle_root (compute_leaf h3 caller amount) then
    .ok { s with
          claimed := fun a => if a = caller then true else s.claimed a,
          total_claimed := s.total_claimed + amount }
  else .error .invalidProof

/-- is_claimed from the MigrationPortal contract (read-only). -/
def is_claimed (s : PortalState) (user : F) : Bool :=
  s.claimed user

/-- get_claimable from the MigrationPortal contract: a read-only probe
(snapshot receiver, so it cannot write storage).  It checks only the
claimed flag and then delegates to verify_poseidon against the stored
root; no pause, deadline, amount or proof-length guard appears. -/
def get_claimable (h2 : F → F → F) (h3 : F → F → F → F) (s : PortalState)
    (user : F) (amount : Nat) (proof : List F) : Bool :=
  if s.claimed user then false
  else verify_poseidon h2 proof s.merkle_root (compute_leaf h3 user amount)

/-- propose_merkle_root from the MigrationPortal contract: owner only,
rejects the zero root, stores the pending root with its execution block,
overwriting any prior pending proposal. -/
def propose_merkle_root (s : PortalState) (caller : F) (current_block : Nat)
    (new_root : F) : Except PortalError PortalState :=
  if caller ≠ s.owner then .error .notOwner
  else if new_root = 0 then .error .invalidRoot
  else .ok { s with
             pending_root := new_root,
             pending_root_block := current_block + ROOT_UPDATE_TIMELOCK_BLOCKS }

/-- execute_merkle_root_update from the MigrationPortal contract: owner
only; requires a pending root and an elapsed timelock; installs the
pending root as the active root and clears the pending slot. -/
def execute_merkle_root_update (s : PortalState) (caller : F)
    (current_block : Nat) : Except PortalError PortalState :=
  if caller ≠ s.owner then .error .notOwner
  else if s.pending_root = 0 then .error .noPendingRoot
  else if current_block < s.pending_root_block then .error .timelockNotReady
  else .ok { s with merkle_root := s.pending_root, pending_root := 0 }

/-- pause from the MigrationPortal contract: owner only, delegates to the
OpenZeppelin Pausable component, which rejects pausing when already
paused. -/
def pause (s : PortalState) (caller : F) : Except PortalError PortalState :=
  if caller ≠ s.owner then .error .notOwner
  else if s.paused then .error .pausedError
  else .ok { s with paused := true }

/-- unpause from the MigrationPortal contract: owner only, delegates to the
OpenZeppelin Pausable component, which rejects unpausing when not
paused. -/
def unpause (s : PortalState) (caller : F) : Except PortalError PortalState :=
  if caller ≠ s.owner then .error .notOwner
  else if s.paused then .ok { s with paused := false }
  else .error .notPausedError

/-- Starknet transaction semantics: an entry point that aborts (a failed
assert) reverts, leaving the persistent state exactly as it was; a
successful call installs the produced state. -/
def resultState (r : Except PortalError PortalState) (s : PortalState) :
    PortalState :=
  match r with
  | .ok t => t
  | .error _ => s

/-- Concrete stand-in for the opaque two-input Poseidon primitive, used
only to evaluate the development at concrete inputs.  Its output always
differs from both inputs. -/
def testHash2 (a b : F) : F := 3 * a + 5 * b + 7

/-- Concrete stand-in for the opaque three-input Poseidon primitive. -/
def testHash3 (a b c : F) : F := 3 * a + 5 * b + 7 * c + 11

/-- A reachable portal state used by the concrete evaluations. -/
def baseState : PortalState where
  paused := false
  owner := 1
  token := 2
  merkle_root := 1
  claimed := fun _ => false
  claim_deadline_block := 1000
  pending_root := 0
  pending_root_block := 0
  total_claimed := 0
  max_claim_amount := 10000

/-- A state with a pending root update whose timelock expires at block 500. -/
def pendState : PortalState :=
  { baseState with pending_root := 77, pending_root_block := 500 }

/-- A state whose stored root commits to the single entry (7, 100), so the
empty proof verifies for caller 7 and amount 100. -/
def singleLeafState : PortalState :=
  { baseState with merkle_root := compute_leaf testHash3 7 100 }

/-- A state whose stored root commits to the single entry (7, 10000), the
configured maximum claim amount. -/
def capLeafState : PortalState :=
  { baseState with merkle_root := compute_leaf testHash3 7 10000 }

/-- C5 supporting theorem.  Both leaf computations reduce to one
application of their respective three-input Poseidon primitive to the
address, the low 128-bit limb and the high limb: the TypeScript
computeLeaf (bit mask and shift) and the contract compute_leaf (u256 limb
decomposition) agree on the limbs and the argument order, evaluated here
at the validate_leaf.ts test input (address 0x10, amount 1000) and at
every other input.  The two sides therefore differ exactly when their
primitives differ - and generate_merkle.ts instantiates p3ts with
poseidon-lite's poseidon3 (the circomlib Poseidon over the BN254 scalar
field) while the contract instantiates p3cairo with Starknet's Poseidon
sponge over the Stark field, which are different functions. -/
theorem computeLeaf_compute_leaf_same_split (p3ts p3cairo : F → F → F → F)
    (address amount : F) :
    computeLeaf p3ts address amount
        = p3ts address (amount % 2 ^ 128) (amount / 2 ^ 128)
      ∧ compute_leaf p3cairo address amount
        = p3cairo address (amount % 2 ^ 128) (amount / 2 ^ 128)
      ∧ computeLeaf p3ts 16 1000 = p3ts 16 1000 0
      ∧ compute_leaf p3cairo 16 1000 = p3cairo 16 1000 0 := by
  have hsplit : ∀ a : F, a &&& MASK_128 = a % 2 ^ 128 := by
    intro a
    have := Nat.and_pow_two_sub_one_eq_mod a 128
    simpa [MASK_128] using this
  have hshift : ∀ a : F, a >>> 128 = a / 2 ^ 128 :=
    fun a => Nat.shiftRight_eq_div_pow a 128
  refine ⟨?_, rfl, ?_, ?_⟩
  · simp [computeLeaf, hsplit, hshift]
  · simp [computeLeaf, hsplit, hshift]
  · simp [compute_leaf]

/-- C6: in any state with a pending root update, an owner call to
execute_merkle_root_update before the recorded execution block fails with
TimelockNotReady; at or after it, the call succeeds, the active root
becomes the pending root, and the pending slot is cleared, so a second
execute with nothing newly pending fails with NoPendingRoot. -/
theorem execute_timelock_boundary (s : PortalState)
    (caller : F) (current_block later_block : Nat)
    (hown : caller = s.owner) (hpend : s.pending_root ≠ 0) :
    (current_block < s.pending_root_block →
        execute_merkle_root_update s caller current_block
          = .error .timelockNotReady)
      ∧ (s.pending_root_block ≤ current_block →
        ∃ s2, execute_merkle_root_update s caller current_block = .ok s2
          ∧ s2.merkle_root = s.pending_root
          ∧ s2.pending_root = 0
          ∧ execute_merkle_root_update s2 caller later_block
              = .error .noPendingRoot) := by
  constructor
  · intro hblk
    simp [execute_merkle_root_update, hown, hpend, hblk]
  · intro hblk
    refine ⟨{ s with merkle_root := s.pending_root, pending_root := 0 },
      ?_, rfl, rfl, ?_⟩
    · simp [execute_merkle_root_update, hown, hpend, Nat.not_lt.mpr hblk]
    · simp [execute_merkle_root_update, hown]

/-- C6 witness: in the concrete pending state (pending root 77, execution
block 500) with the owner calling, execute at block 499 fails with
TimelockNotReady, execute at block 500 succeeds installing root 77 and
clearing the pending slot, and a repeat execute at block 600 fails with
NoPendingRoot. -/
theorem execute_timelock_boundary_witness :
    execute_merkle_root_update pendState 1 499 = .error .timelockNotReady
      ∧ ∃ s2, execute_merkle_root_update pendState 1 500 = .ok s2
          ∧ s2.merkle_root = 77
          ∧ s2.pending_root = 0
          ∧ execute_merkle_root_update s2 1 600 = .error .noPendingRoot := by
  have h1 := (execute_timelock_boundary pendState 1 499 600 rfl
    (by decide)).1 (by decide)
  have h2 := (execute_timelock_boundary pendState 1 500 600 rfl
    (by decide)).2 (by decide)
  obtain ⟨s2, he, hr, hp, hrepeat⟩ := h2
  exact ⟨h1, s2, he, hr, hp, hrepeat⟩

/-- C7: with every other guard satisfied and a verifying proof, a claim at
the current block equal to the claim deadline succeeds, and a claim at the
deadline plus one fails with ClaimPeriodEnded. -/
theorem claim_deadline_boundary (h2 : F → F → F) (h3 : F → F → F → F)
    (s : PortalState) (caller : F) (amount : Nat) (proof : List F)
    (hp : s.paused = false) (hlen : proof.length ≤ MAX_PROOF_LENGTH)
    (hc : s.claimed caller = false) (hz : amount ≠ 0)
    (hmax : amount ≤ s.max_claim_amount)
    (hv : verify_poseidon h2 proof s.merkle_root
        (compute_leaf h3 caller amount) = true) :
    (∃ s2, claim h2 h3 s caller s.claim_deadline_block amount proof = .ok s2)
      ∧ claim h2 h3 s caller (s.claim_deadline_block + 1) amount proof
          = .error .claimPeriodEnded := by
  constructor
  · refine ⟨{ s with
        claimed := fun a => if a = caller then true else s.claimed a,
        total_claimed := s.total_claimed + amount }, ?_⟩
    simp [claim, hp, Nat.not_lt.mpr hlen, hc, hz, Nat.not_lt.mpr hmax, hv]
  · simp [claim, hp, Nat.not_lt.mpr hlen, hc]

/-- C7 witness: in the concrete single-leaf state (root committing to
caller 7, amount 100, deadline block 1000), a claim by 7 at block 1000
succeeds and a claim at block 1001 fails with ClaimPeriodEnded. -/
theorem claim_deadline_boundary_witness :
    (∃ s2, claim testHash2 testHash3 singleLeafState 7 1000 100 [] = .ok s2)
      ∧ claim testHash2 testHash3 singleLeafState 7 1001 100 []
          = .error .claimPeriodEnded :=
  claim_deadline_boundary testHash2 testHash3 singleLeafState 7 100 []
    rfl (by decide) rfl (by decide) (by decide) (by decide)

/-- C8: with every other guard satisfied and a verifying proof for the
maximum amount, a claim of exactly max_claim_amount succeeds, and a claim
of max_claim_amount + 1 (with any proof) fails with MaxAmountExceeded. -/
theorem claim_cap_boundary (h2 : F → F → F) (h3 : F → F → F → F)
    (s : PortalState) (caller : F) (current_block : Nat)
    (proof proof2 : List F)
    (hp : s.paused = false) (hlen : proof.length ≤ MAX_PROOF_LENGTH)
    (hlen2 : proof2.length ≤ MAX_PROOF_LENGTH)
    (hc : s.claimed caller = false)
    (hd : current_block ≤ s.claim_deadline_block)
    (hz : s.max_claim_amount ≠ 0)
    (hv : verify_poseidon h2 proof s.merkle_root
        (compute_leaf h3 caller s.max_claim_amount) = true) :
    (∃ s2, claim h2 h3 s caller current_block s.max_claim_amount proof
        = .ok s2)
      ∧ claim h2 h3 s caller current_block (s.max_claim_amount + 1) proof2
          = .error .maxAmountExceeded := by
  constructor
  · refine ⟨{ s with
        claimed := fun a => if a = caller then true else s.claimed a,
        total_claimed := s.total_claimed + s.max_claim_amount }, ?_⟩
    simp [claim, hp, Nat.not_lt.mpr hlen, hc, Nat.not_lt.mpr hd, hz, hv]
  · simp [claim, hp, Nat.not_lt.mpr hlen2, hc, Nat.not_lt.mpr hd,
      Nat.lt_succ_self]

/-- C8 witness: in the concrete state whose root commits to caller 7 and
the maximum amount 10000, a claim of 10000 succeeds and a claim of 10001
fails with MaxAmountExceeded. -/
theorem claim_cap_boundary_witness :
    (∃ s2, claim testHash2 testHash3 capLeafState 7 5 10000 [] = .ok s2)
      ∧ claim testHash2 testHash3 capLeafState 7 5 10001 []
          = .error .maxAmountExceeded := by
  have h := claim_cap_boundary testHash2 testHash3 capLeafState 7 5 [] []
    rfl (by decide) (by decide) rfl (by decide) (by decide) (by decide)
  exact h

/-- C9: frame conditions of the mutating entry points under transaction
semantics (resultState covers both the success state and the revert
state).  Every entry point leaves claim_deadline_block and
max_claim_amount unchanged; the active merkle_root is unchanged by claim,
propose_merkle_root, pause and unpause (only execute_merkle_root_update
ever writes it); the pause flag is unchanged by claim,
propose_merkle_root and execute_merkle_root_update (only pause and
unpause ever write it).  The read-only entry points (is_claimed,
get_claimable, the root and total getters) take a state snapshot and are
modelled as pure functions, so they touch no state at all. -/
theorem entry_point_frame (h2 : F → F → F) (h3 : F → F → F → F)
    (s : PortalState) (caller : F) (current_block amount : Nat)
    (proof : List F) (new_root : F) :
    ((resultState (claim h2 h3 s caller current_block amount proof)
          s).claim_deadline_block = s.claim_deadline_block
      ∧ (resultState (claim h2 h3 s caller current_block amount proof)
          s).max_claim_amount = s.max_claim_amount
      ∧ (resultState (claim h2 h3 s caller current_block amount proof)
          s).merkle_root = s.merkle_root
      ∧ (resultState (claim h2 h3 s caller current_block amount proof)
          s).paused = s.paused)
    ∧ ((resultState (propose_merkle_root s caller current_block new_root)
          s).claim_deadline_block = s.claim_deadline_block
      ∧ (resultState (propose_merkle_root s caller current_block new_root)
          s).max_claim_amount = s.max_claim_amount
      ∧ (resultState (propose_merkle_root s caller current_block new_root)
          s).merkle_root = s.merkle_root
      ∧ (resultState (propose_merkle_root s caller current_block new_root)
          s).paused = s.paused)
    ∧ ((resultState (execute_merkle_root_update s caller current_block)
          s).claim_deadline_block = s.claim_deadline_block
      ∧ (resultState (execute_merkle_root_update s caller current_block)
          s).max_claim_amount = s.max_claim_amount
      ∧ (resultState (execute_merkle_root_update s caller current_block)
          s).paused = s.paused)
    ∧ ((resultState (pause s caller) s).claim_deadline_block
          = s.claim_deadline_block
      ∧ (resultState (pause s caller) s).max_claim_amount
          = s.max_claim_amount
      ∧ (resultState (pause s caller) s).merkle_root = s.merkle_root)
    ∧ ((resultState (unpause s caller) s).claim_deadline_block
          = s.claim_deadline_block
      ∧ (resultState (unpause s caller) s).max_claim_amount
          = s.max_claim_amount
      ∧ (resultState (unpause s caller) s).merkle_root = s.merkle_root) := by
  refine ⟨?_, ?_, ?_, ?_, ?_⟩
  · unfold claim resultState
    split_ifs <;> simp
  · unfold propose_merkle_root resultState
    split_ifs <;> simp
  · unfold execute_merkle_root_update resultState
    split_ifs <;> simp
  · unfold pause resultState
    split_ifs <;> simp
  · unfold unpause resultState
    split_ifs <;> simp

/-- A state where the portal is paused, the deadline (block 0) has passed
and the stored root commits to caller 7 with amount 0: every claim guard
that get_claimable skips is violated there. -/
def contrastState : PortalState :=
  { baseState with
    paused := true,
    claim_deadline_block := 0,
    merkle_root := compute_leaf testHash3 7 0 }

/-- C10: get_claimable depends only on the probed user's claimed flag, the
stored root and the supplied arguments; it returns false whenever the user
is already claimed and otherwise returns exactly the proof verifier's
result.  In particular, in the concrete contrastState - portal paused,
current block 5 past the deadline 0, amount 0 - get_claimable returns
true while claim with the same arguments aborts (here with the pause
error); get_claimable is a pure function of the state snapshot, so it
mutates nothing. -/
theorem get_claimable_characterization (h2 : F → F → F) (h3 : F → F → F → F)
    (s t : PortalState) (user : F) (amount : Nat) (proof : List F) :
    (s.claimed user = t.claimed user → s.merkle_root = t.merkle_root →
        get_claimable h2 h3 s user amount proof
          = get_claimable h2 h3 t user amount proof)
    ∧ (s.claimed user = true →
        get_claimable h2 h3 s user amount proof = false)
    ∧ (s.claimed user = false →
        get_claimable h2 h3 s user amount proof
          = verify_poseidon h2 proof s.merkle_root
              (compute_leaf h3 user amount))
    ∧ (get_claimable testHash2 testHash3 contrastState 7 0 [] = true
        ∧ claim testHash2 testHash3 contrastState 7 5 0 []
            = .error .pausedError) := by
  refine ⟨?_, ?_, ?_, by decide, rfl⟩
  · intro hcl hroot
    unfold get_claimable
    rw [hcl, hroot]
  · intro hcl
    simp [get_claimable, hcl]
  · intro hcl
    simp [get_claimable, hcl]

/-- C10 witness: applying the characterization concretely - for a user
whose flag is set in the state where account 7 has claimed, get_claimable
returns false; for the same user in baseState (flag clear, root 1), it
returns the verifier's result on the empty proof, which is false because
the leaf does not equal the stored root. -/
theorem get_claimable_characterization_witness :
    get_claimable testHash2 testHash3
        { baseState with claimed := fun a => a == 7 } 7 3 [] = false
      ∧ get_claimable testHash2 testHash3 baseState 7 3 []
          = verify_poseidon testHash2 [] baseState.merkle_root
              (compute_leaf testHash3 7 3) :=
  ⟨(get_claimable_characterization testHash2 testHash3
      { baseState with claimed := fun a => a == 7 } baseState 7 3 []).2.1
      rfl,
    (get_claimable_characterization testHash2 testHash3
      baseState baseState 7 3 []).2.2.1 rfl⟩

/-- A paused portal state. -/
def pausedState : PortalState :=
  { baseState with paused := true }

set_option maxHeartbeats 1600000 in
/-- C4: failure atomicity and error specificity of claim.  Whenever any
guard fails the call aborts and, under Starknet transaction semantics
(resultState), the entire persistent state is exactly the starting state;
moreover each error value is returned precisely when its own guard is the
first to fail, so the errors are specific and mutually distinguishable
(they are distinct constructors of PortalError, backed by distinct felt252
short strings in the source). -/
theorem claim_guard_failure_atomic (h2 : F → F → F) (h3 : F → F → F → F)
    (s : PortalState) (caller : F) (current_block amount : Nat)
    (proof : List F) :
    (∀ e, claim h2 h3 s caller current_block amount proof = .error e →
        resultState (claim h2 h3 s caller current_block amount proof) s = s)
    ∧ (claim h2 h3 s caller current_block amount proof
          = .error .pausedError ↔ s.paused = true)
    ∧ (claim h2 h3 s caller current_block amount proof
          = .error .proofTooLong ↔
        s.paused = false ∧ MAX_PROOF_LENGTH < proof.length)
    ∧ (claim h2 h3 s caller current_block amount proof
          = .error .alreadyClaimed ↔
        s.paused = false ∧ proof.length ≤ MAX_PROOF_LENGTH
          ∧ s.claimed caller = true)
    ∧ (claim h2 h3 s caller current_block amount proof
          = .error .claimPeriodEnded ↔
        s.paused = false ∧ proof.length ≤ MAX_PROOF_LENGTH
          ∧ s.claimed caller = false
          ∧ s.claim_deadline_block < current_block)
    ∧ (claim h2 h3 s caller current_block amount proof
          = .error .amountZero ↔
        s.paused = false ∧ proof.length ≤ MAX_PROOF_LENGTH
          ∧ s.claimed caller = false
          ∧ current_block ≤ s.claim_deadline_block ∧ amount = 0)
    ∧ (claim h2 h3 s caller current_block amount proof
          = .error .maxAmountExceeded ↔
        s.paused = false ∧ proof.length ≤ MAX_PROOF_LENGTH
          ∧ s.claimed caller = false
          ∧ current_block ≤ s.claim_deadline_block ∧ amount ≠ 0
          ∧ s.max_claim_amount < amount)
    ∧ (claim h2 h3 s caller current_block amount proof
          = .error .invalidProof ↔
        s.paused = false ∧ proof.length ≤ MAX_PROOF_LENGTH
          ∧ s.claimed caller = false
          ∧ current_block ≤ s.claim_deadline_block ∧ amount ≠ 0
          ∧ amount ≤ s.max_claim_amount
          ∧ verify_poseidon h2 proof s.merkle_root
              (compute_leaf h3 caller amount) = false) := by
  refine ⟨?_, ?_, ?_, ?_, ?_, ?_, ?_, ?_⟩
  · intro e he
    rw [he]
    rfl
  all_goals
    unfold claim
    split_ifs with hg1 hg2 hg3 hg4 hg5 hg6 hg7 <;> simp_all [Nat.not_lt]

/-- C4 witness: in the concrete paused state, claim aborts with the pause
error and the resulting persistent state is exactly the starting state. -/
theorem claim_guard_failure_atomic_witness :
    claim testHash2 testHash3 pausedState 7 0 5 [] = .error .pausedError
      ∧ resultState (claim testHash2 testHash3 pausedState 7 0 5 [])
          pausedState = pausedState := by
  have h := claim_guard_failure_atomic testHash2 testHash3 pausedState 7 0 5 []
  have he : claim testHash2 testHash3 pausedState 7 0 5 []
      = .error .pausedError := h.2.1.mpr rfl
  exact ⟨he, h.1 .pausedError he⟩

/-- A state in which account 7 has already claimed. -/
def claimedState : PortalState :=
  { baseState with claimed := fun a => a == 7 }

/-- C1 counterexample: a subsequent claim by an already-claimed account
does not always fail with AlreadyClaimed.  Starting from the concrete
single-leaf state, account 7's first claim succeeds; the subsequent claim
by 7 carrying a 33-element proof then fails with ProofTooLong, not
AlreadyClaimed, because the proof-length guard runs before the
already-claimed guard. -/
theorem subsequent_claim_error_not_always_alreadyClaimed :
    (claim testHash2 testHash3 singleLeafState 7 0 100 []).isOk = true
      ∧ claim testHash2 testHash3
          (resultState (claim testHash2 testHash3 singleLeafState 7 0 100 [])
            singleLeafState)
          7 0 100 (List.replicate 33 0)
          = .error .proofTooLong :=
  ⟨rfl, rfl⟩

/-- C1 amended: a successful claim happens only for a not-yet-claimed
caller and irreversibly sets the caller's claimed flag; once the flag is
set, no claim by that account can ever succeed, and whenever the portal
is not paused and the proof is within the 32-element bound the failure is
specifically AlreadyClaimed (an earlier guard - pause or proof length -
may otherwise claim the error first); and no entry point (claim,
propose_merkle_root, execute_merkle_root_update, pause, unpause) ever
resets a claimed flag from true back to false. -/
theorem exactly_once_claim (h2 : F → F → F) (h3 : F → F → F → F)
    (s : PortalState) (caller : F) (current_block amount : Nat)
    (proof : List F) :
    (∀ s2, claim h2 h3 s caller current_block amount proof = .ok s2 →
        s.claimed caller = false ∧ s2.claimed caller = true)
    ∧ (s.claimed caller = true →
        ∀ s2, claim h2 h3 s caller current_block amount proof ≠ .ok s2)
    ∧ (s.claimed caller = true → s.paused = false →
        proof.length ≤ MAX_PROOF_LENGTH →
        claim h2 h3 s caller current_block amount proof
          = .error .alreadyClaimed)
    ∧ (∀ a, s.claimed a = true →
        (resultState (claim h2 h3 s caller current_block amount proof)
          s).claimed a = true)
    ∧ (∀ a new_root, s.claimed a = true →
        (resultState (propose_merkle_root s caller current_block new_root)
          s).claimed a = true)
    ∧ (∀ a, s.claimed a = true →
        (resultState (execute_merkle_root_update s caller current_block)
          s).claimed a = true)
    ∧ (∀ a, s.claimed a = true →
        (resultState (pause s caller) s).claimed a = true)
    ∧ (∀ a, s.claimed a = true →
        (resultState (unpause s caller) s).claimed a = true) := by
  refine ⟨?_, ?_, ?_, ?_, ?_, ?_, ?_, ?_⟩
  · intro s2 hok
    unfold claim at hok
    split_ifs at hok with hg1 hg2 hg3 hg4 hg5 hg6 hg7
    simp_all
    all_goals exact hok ▸ by simp
  · intro hcl s2 hok
    unfold claim at hok
    split_ifs at hok
  · intro hcl hp hlen
    simp [claim, hp, Nat.not_lt.mpr hlen, hcl]
  · intro a ha
    unfold claim resultState
    split_ifs <;> simp_all
  · intro a new_root ha
    unfold propose_merkle_root resultState
    split_ifs <;> simp_all
  · intro a ha
    unfold execute_merkle_root_update resultState
    split_ifs <;> simp_all
  · intro a ha
    unfold pause resultState
    split_ifs <;> simp_all
  · intro a ha
    unfold unpause resultState
    split_ifs <;> simp_all

/-- C1 witness: in the concrete state where account 7 has claimed, with
the portal unpaused and an in-bound proof, a repeat claim by 7 fails with
AlreadyClaimed, and the claimed flag survives an unrelated pause call. -/
theorem exactly_once_claim_witness :
    claim testHash2 testHash3 claimedState 7 0 5 []
        = .error .alreadyClaimed
      ∧ (resultState (pause claimedState 1) claimedState).claimed 7
          = true :=
  ⟨(exactly_once_claim testHash2 testHash3 claimedState 7 0 5 []).2.2.1
      rfl rfl (by decide),
    (exactly_once_claim testHash2 testHash3 claimedState 7 0 5
      []).2.2.2.2.2.2.2 7 rfl⟩

/-- A 33-element proof, one above the MAX_PROOF_LENGTH bound of 32. -/
def longProof : List F := List.replicate 33 5

/-- A state whose stored root equals the fold of longProof over the leaf
for (user 9, amount 40): an oversized proof that folds to the root. -/
def oversizedAcceptState : PortalState :=
  { baseState with
    merkle_root := process_proof testHash2 longProof
      (compute_leaf testHash3 9 40) }

set_option maxRecDepth 8000 in
/-- C3 counterexample: get_claimable does not reject a proof longer than
32 elements.  In the concrete state whose root is the fold of a
33-element proof, get_claimable folds the whole proof and returns true,
not false. -/
theorem get_claimable_accepts_oversized_proof :
    MAX_PROOF_LENGTH < longProof.length
      ∧ get_claimable testHash2 testHash3 oversizedAcceptState 9 40 longProof
          = true := by
  constructor
  · decide
  · rfl

/-- C3 amended: claim rejects an oversized proof with ProofTooLong before
any hashing - whenever the portal is not paused and the proof exceeds 32
elements the call fails with ProofTooLong, and the outcome is identical
under any choice of hash primitives, showing no hash is consulted.
get_claimable, by contrast, performs no length check at all: for an
unclaimed user it returns exactly the verifier's fold over the entire
proof, whatever its length. -/
theorem proof_length_guard (h2 h2b : F → F → F) (h3 h3b : F → F → F → F)
    (s : PortalState) (caller : F) (current_block amount : Nat)
    (proof : List F) :
    (s.paused = false → MAX_PROOF_LENGTH < proof.length →
        claim h2 h3 s caller current_block amount proof
          = .error .proofTooLong)
    ∧ (s.paused = false → MAX_PROOF_LENGTH < proof.length →
        claim h2 h3 s caller current_block amount proof
          = claim h2b h3b s caller current_block amount proof)
    ∧ (s.claimed caller = false →
        get_claimable h2 h3 s caller amount proof
          = verify_poseidon h2 proof s.merkle_root
              (compute_leaf h3 caller amount)) := by
  refine ⟨?_, ?_, ?_⟩
  · intro hp hlong
    simp [claim, hp, hlong]
  · intro hp hlong
    simp [claim, hp, hlong]
  · intro hcl
    simp [get_claimable, hcl]

/-- C3 witness: with the portal unpaused, a claim carrying the concrete
33-element longProof fails with ProofTooLong. -/
theorem proof_length_guard_witness :
    claim testHash2 testHash3 baseState 9 0 5 longProof
        = .error .proofTooLong :=
  (proof_length_guard testHash2 testHash2 testHash3 testHash3
    baseState 9 0 5 longProof).1 rfl (by decide)

/-- Every element produced by mapWithIndex is the image of the callback
at some index and entry. -/
theorem mem_mapWithIndex (f : Nat → F × F → ClaimOut) :
    ∀ (l : List (F × F)) (i : Nat) (c : ClaimOut),
      c ∈ mapWithIndex f i l → ∃ j e, c = f j e := by
  intro l
  induction l with
  | nil =>
      intro i c hc
      simp [mapWithIndex] at hc
  | cons a rest ih =>
      intro i c hc
      simp only [mapWithIndex, List.mem_cons] at hc
      rcases hc with hc | hc
      · exact ⟨i, a, hc⟩
      · exact ih (i + 1) c hc

/-- getD on a list whose members are all empty yields the empty list. -/
theorem getD_of_all_nil :
    ∀ (l : List (List F)) (i : Nat), (∀ p ∈ l, p = ([] : List F)) →
      l.getD i [] = [] := by
  intro l
  induction l with
  | nil =>
      intro i _
      simp [List.getD]
  | cons a rest ih =>
      intro i h
      cases i with
      | zero => simpa using h a (by simp)
      | succ n =>
          simpa using ih n (fun p hp => h p (List.mem_cons_of_mem a hp))

/-- Every proof returned by buildMerkleTree is the empty list: the single
leaf case returns [[]] directly, and the multi-leaf case maps every
position of the accumulated path to [] (the source's reconstruction
callback never fills a path in). -/
theorem buildMerkleTree_proofs_nil (h2 : F → F → F) (leaves : List F)
    (br : BuildResult) (hb : buildMerkleTree h2 leaves = some br) :
    ∀ p ∈ br.proofs, p = ([] : List F) := by
  unfold buildMerkleTree at hb
  match leaves, hb with
  | [], hb => simp at hb
  | [l], hb =>
      simp only [Option.some.injEq] at hb
      subst hb
      intro p hp
      simpa using hp
  | a :: b :: rest, hb =>
      revert hb
      cases hloop : buildLoop h2 (a :: b :: rest).length
          ((a :: b :: rest).map (fun l => (l, []))) with
      | nil => intro hb; simp at hb
      | cons hd tl =>
          intro hb
          obtain ⟨root, path⟩ := hd
          simp only [Option.some.injEq] at hb
          subst hb
          intro p hp
          simp only [List.mem_map] at hp
          obtain ⟨x, _, hx⟩ := hp
          exact hx.symm

/-- Every claim entry emitted by generateMerkleTree carries an empty
proof. -/
theorem generateMerkleTree_proofs_nil (h2 : F → F → F)
    (h3 : F → F → F → F) (entries : List (F × F)) (out : MerkleOutput)
    (h : generateMerkleTree h2 h3 entries = some out) :
    ∀ c ∈ out.claims, c.proof = ([] : List F) := by
  unfold generateMerkleTree at h
  match entries, h with
  | [], h =>
      simp [buildMerkleTree] at h
  | [e], h =>
      simp only [Option.some.injEq] at h
      subst h
      intro c hc
      simp only [List.mem_singleton] at hc
      subst hc
      rfl
  | e1 :: e2 :: rest, h =>
      simp only [List.map_cons, Option.map_eq_some'] at h
      obtain ⟨br, hb, hout⟩ := h
      subst hout
      intro c hc
      obtain ⟨j, e, hce⟩ := mem_mapWithIndex _ _ _ c hc
      subst hce
      exact getD_of_all_nil br.proofs j
        (buildMerkleTree_proofs_nil h2 _ br hb)

/-- C2: the off-chain builder does not emit verifying proofs.  For every
entry list and every hash instantiation, each claim produced by
generateMerkleTree carries an empty proof; concretely, on the two-entry
list [(1, 1000), (2, 2000)] the builder emits the proofs [[], []], and
folding the first entry's (empty) proof from its leaf yields the leaf
itself, which is not the emitted root, so verification returns false -
the round trip fails. -/
theorem generateMerkleTree_round_trip_fails :
    (∀ (h2 : F → F → F) (h3 : F → F → F → F) (entries : List (F × F))
        (out : MerkleOutput), generateMerkleTree h2 h3 entries = some out →
        ∀ c ∈ out.claims, c.proof = ([] : List F))
    ∧ ((generateMerkleTree testHash2 testHash3 [(1, 1000), (2, 2000)]).map
        (fun o => o.claims.map (fun c => c.proof))) = some [[], []]
    ∧ ((generateMerkleTree testHash2 testHash3 [(1, 1000), (2, 2000)]).map
        (fun o => verify_poseidon testHash2 [] o.root
          (computeLeaf testHash3 1 1000))) = some false := by
  refine ⟨generateMerkleTree_proofs_nil, ?_, ?_⟩
  · rfl
  · rfl

/-- C2 witness: the universal part of the round-trip failure theorem
applied at the concrete two-entry list and its concretely computed
output (root 65134, both proofs empty). -/
theorem generateMerkleTree_round_trip_fails_witness :
    (⟨1, 1000, ([] : List F)⟩ : ClaimOut).proof = ([] : List F) :=
  generateMerkleTree_round_trip_fails.1 testHash2 testHash3
    [(1, 1000), (2, 2000)]
    ⟨65134, [⟨1, 1000, []⟩, ⟨2, 2000, []⟩]⟩ (by rfl)
    ⟨1, 1000, []⟩ (by simp)

end MigrationDemo
